import Mathlib

/-!
A shallow embedding of `nndspack/nndspack.py`: a fixed-record binary
container for numeric array datasets with a sequential writer (`Packer`),
a random-access reader (`Loader`) and a batching iterator (`BatchLoader`).

Modelling conventions:
* a byte stream is a `List Nat` of byte values; multi-byte fields are
  little-endian (the `struct` formats in the source use the platform's
  native order, which is the same fixed order on both the writer and the
  reader side; the formats used here introduce no alignment padding for
  the configurations evaluated in this file);
* an element value is represented by the bit pattern of its column's
  element kind (a `Nat` below `2^(8*width)`); this matches the source,
  where encode and decode use the same fixed-width binary representation;
* fallible operations return `Except Err`; each `Err` constructor names
  the Python exception site it models.
-/

namespace Nndspack

/-- Decidable equality for `Except` results, so that concrete runs of the
fallible operations below can be settled by `decide`. -/
instance {ε α : Type} [DecidableEq ε] [DecidableEq α] : DecidableEq (Except ε α) := fun
  | .ok a, .ok b =>
    if h : a = b then .isTrue (by rw [h])
    else .isFalse (by intro hc; cases hc; exact h rfl)
  | .error e, .error f =>
    if h : e = f then .isTrue (by rw [h])
    else .isFalse (by intro hc; cases hc; exact h rfl)
  | .ok _, .error _ => .isFalse (by intro hc; cases hc)
  | .error _, .ok _ => .isFalse (by intro hc; cases hc)

/-- Element kinds supported by the format: the keys of the type-registry
dictionaries `_TYPE_TO_CODE_DICT` / `_CODE_TO_TYPE_DICT` in the source. -/
inductive ElementType
| int8 | int16 | int32 | int64
| uint8 | uint16 | uint32 | uint64
| float16 | float32 | float64
| bool_
deriving DecidableEq, Repr

/-- `_TYPE_TO_CODE_DICT`: the on-disk type code of an element kind. -/
def typeCode : ElementType → Nat
| .int8 => 0 | .int16 => 1 | .int32 => 2 | .int64 => 3
| .uint8 => 4 | .uint16 => 5 | .uint32 => 6 | .uint64 => 7
| .float16 => 8 | .float32 => 9 | .float64 => 10
| .bool_ => 11

/-- `_CODE_TO_TYPE_DICT`: decoding an on-disk type code; `none` models the
`KeyError` raised for a code outside the dictionary. -/
def codeToType : Nat → Option ElementType
| 0 => some .int8 | 1 => some .int16 | 2 => some .int32 | 3 => some .int64
| 4 => some .uint8 | 5 => some .uint16 | 6 => some .uint32 | 7 => some .uint64
| 8 => some .float16 | 9 => some .float32 | 10 => some .float64
| 11 => some .bool_
| _ => none

/-- `_TYPE_TO_NBYTES_DICT`: byte width of one element. -/
def typeNBytes : ElementType → Nat
| .int8 => 1 | .int16 => 2 | .int32 => 4 | .int64 => 8
| .uint8 => 1 | .uint16 => 2 | .uint32 => 4 | .uint64 => 8
| .float16 => 2 | .float32 => 4 | .float64 => 8
| .bool_ => 1

/-- Signed integer kinds (struct formats `b h i q`). -/
def isSignedTy : ElementType → Bool
| .int8 | .int16 | .int32 | .int64 => true
| _ => false

/-- IEEE-754 exponent and mantissa field widths of the floating kinds
(struct formats `e f d`); `none` for the integer and boolean kinds. -/
def floatParams : ElementType → Option (Nat × Nat)
| .float16 => some (5, 10)
| .float32 => some (8, 23)
| .float64 => some (11, 52)
| _ => none

/-- Little-endian byte decomposition of a value into `w` bytes
(the encoding side of a fixed-width `struct` field). -/
def bytesLE : Nat → Nat → List Nat
| 0, _ => []
| w + 1, v => v % 256 :: bytesLE w (v / 256)

/-- Little-endian reassembly of a byte list into a value
(the decoding side of a fixed-width `struct` field). -/
def natOfBytesLE : List Nat → Nat
| [] => 0
| b :: bs => b + 256 * natOfBytesLE bs

/-- A `struct` `H` field (u16). -/
def u16le (v : Nat) : List Nat := bytesLE 2 v

/-- A `struct` `I` field (u32). -/
def u32le (v : Nat) : List Nat := bytesLE 4 v

/-- Decoding `n` consecutive u32 fields (`struct.unpack(f'{dim}I', ...)`);
only called on streams long enough to hold all `n` fields. -/
def readU32s : Nat → List Nat → List Nat
| 0, _ => []
| n + 1, a :: b :: c :: d :: rest =>
  (a + 256 * b + 65536 * c + 16777216 * d) :: readU32s n rest
| _ + 1, _ => []

/-- Per-column metadata as recorded in the file header: element kind and
declared shape (`{'element_type': ..., 'shape': ...}` in the source). -/
structure ColumnDesc where
  elementType : ElementType
  shape : List Nat
deriving DecidableEq, Repr

/-- An in-memory column value: either a numpy scalar of an element kind or
a numpy array with a shape, elements stored as bit patterns of the kind. -/
inductive Datum
| scalar (ty : ElementType) (bits : Nat)
| array (ty : ElementType) (shape : List Nat) (elems : List Nat)
deriving DecidableEq, Repr

/-- The element kind of a column value (`datum.dtype.type`). -/
def datumType : Datum → ElementType
| .scalar ty _ => ty
| .array ty _ _ => ty

/-- The numpy shape of a column value: `()` for a scalar, the array's own
shape otherwise. -/
def datumShape : Datum → List Nat
| .scalar _ _ => []
| .array _ shape _ => shape

/-- The column descriptor `_make_data_header` derives from a sample value:
a plain scalar gets the implicit shape `(1,)`, an array keeps its shape. -/
def datumDesc : Datum → ColumnDesc
| .scalar ty _ => ⟨ty, [1]⟩
| .array ty shape _ => ⟨ty, shape⟩

/-- `struct.pack(f'HH{dim}I', element_type_code, dim, *shape)`: the
serialized per-column header. -/
def encodeDesc (d : ColumnDesc) : List Nat :=
  u16le (typeCode d.elementType) ++ u16le d.shape.length ++ (d.shape.map u32le).flatten

/-- `_make_data_header`: per-column header bytes from a sample value. -/
def make_data_header (d : Datum) : List Nat :=
  encodeDesc (datumDesc d)

/-- `_make_header`: `struct.pack(f'II{len(data_headers)}B', total_count,
num_columns, *data_headers)`. -/
def make_header (totalCount : Nat) (sample : List Datum) : List Nat :=
  u32le totalCount ++ u32le sample.length ++ (sample.map make_data_header).flatten

/-- Error values; each constructor names the Python exception site it
models (`corruptHeader` covers both the `struct.error` of a short header
read and the `KeyError` of an unknown type code; `columnMismatch` is the
column-count exception in `Packer.pack`; `valueError` is the `ValueError`
of a failing `reshape`; `structError` is a `struct.pack`/`unpack` argument
mismatch; `indexOutOfRange` is the index exception in `Loader.load`;
`corruptRecord` is an `unpack` of a short block read; `ioError` is an
`OSError` from seeking to a negative offset). -/
inductive Err
| corruptHeader
| columnMismatch
| valueError
| structError
| indexOutOfRange
| corruptRecord
| ioError
deriving DecidableEq, Repr

/-- `_read_data_header`: reads `HH` (type code, dim), maps the code
through the registry, then reads `dim` u32 shape extents.  A stream that
ends before a field is fully read fails (short `struct.unpack`), as does
an unknown type code (`KeyError`); a `dim` of `0` is NOT rejected and
yields an empty shape. -/
def read_data_header (bs : List Nat) : Except Err (ColumnDesc × List Nat) :=
  match bs with
  | b0 :: b1 :: b2 :: b3 :: rest =>
    let code := b0 + 256 * b1
    let dim := b2 + 256 * b3
    match codeToType code with
    | none => .error .corruptHeader
    | some ty =>
      if rest.length < 4 * dim then .error .corruptHeader
      else .ok (⟨ty, readU32s dim rest⟩, rest.drop (4 * dim))
  | _ => .error .corruptHeader

/-- The per-column loop of `_read_header`. -/
def read_columns : Nat → List Nat → Except Err (List ColumnDesc × List Nat)
| 0, bs => .ok ([], bs)
| n + 1, bs =>
  match read_data_header bs with
  | .error e => .error e
  | .ok (d, rest) =>
    match read_columns n rest with
    | .error e => .error e
    | .ok (ds, rest') => .ok (d :: ds, rest')

/-- `_read_header`: reads `II` (total count, column count), then one data
header per column; returns `(header_size, total_count, data_headers)`
where `header_size` is the stream position after the header
(`fp.tell()`). -/
def read_header (bs : List Nat) : Except Err (Nat × Nat × List ColumnDesc) :=
  match bs with
  | b0 :: b1 :: b2 :: b3 :: b4 :: b5 :: b6 :: b7 :: rest =>
    let totalCount := b0 + 256 * b1 + 65536 * b2 + 16777216 * b3
    let numColumns := b4 + 256 * b5 + 65536 * b6 + 16777216 * b7
    match read_columns numColumns rest with
    | .error e => .error e
    | .ok (ds, rest') => .ok (8 + (rest.length - rest'.length), totalCount, ds)
  | _ => .error .corruptHeader

/-- `numpy.prod` over a shape tuple (product of the extents; `1` for the
empty tuple). -/
def prodList (l : List Nat) : Nat := l.foldr (· * ·) 1

/-- `_make_column_format`: from a sample column value, its element count
(`numpy.prod(column.shape)` for an array with a non-empty shape, else `1`)
and its element kind (standing for the `struct` format
`f'{num_elements}{struct_format}'`). -/
def make_column_format (d : Datum) : Nat × ElementType :=
  match d with
  | .scalar ty _ => (1, ty)
  | .array ty shape _ => ((if shape = [] then 1 else prodList shape), ty)

/-- The precomputed per-column layout `_make_column_info` builds from a
decoded data header. -/
structure ColumnInfo where
  elementType : ElementType
  shape : List Nat
  numElements : Nat
  byteLength : Nat
  isScalar : Bool
deriving DecidableEq, Repr

/-- `_make_column_info`: element count, byte length and the
`is_scalar = (len(shape) == 1 and shape[0] == 1)` flag. -/
def make_column_info (d : ColumnDesc) : ColumnInfo :=
  { elementType := d.elementType
    shape := d.shape
    numElements := prodList d.shape
    byteLength := prodList d.shape * typeNBytes d.elementType
    isScalar := match d.shape with | [n] => n == 1 | _ => false }

/-- Encoding one column of a record inside `Packer.pack`: a scalar value
is packed as the single argument of the column's `struct` format (which
fails unless the declared element count is `1`); an array value is first
`reshape`d to the declared element count (a `ValueError` unless its own
element count agrees) and then packed element by element.  Note no shape
or dtype comparison happens: only element counts are checked.  `Datum`
arrays are assumed well formed (`elems.length = prodList shape`), which
every numpy array satisfies. -/
def pack_one (fmt : Nat × ElementType) (d : Datum) : Except Err (List Nat) :=
  match d with
  | .scalar _ bits =>
    if fmt.1 = 1 then .ok (bytesLE (typeNBytes fmt.2) bits) else .error .structError
  | .array _ shape elems =>
    if prodList shape = fmt.1 then .ok ((elems.map (bytesLE (typeNBytes fmt.2))).flatten)
    else .error .valueError

/-- The per-column write loop of `Packer.pack`. -/
def pack_columns : List (Datum × (Nat × ElementType)) → Except Err (List Nat)
| [] => .ok []
| (d, fmt) :: rest =>
  match pack_one fmt d with
  | .error e => .error e
  | .ok bs =>
    match pack_columns rest with
    | .error e => .error e
    | .ok bss => .ok (bs ++ bss)

/-- `Packer.pack` on one record: raises the column-count exception when
the record's length differs from the count fixed at creation, then writes
the columns in order. -/
def packRecord (formats : List (Nat × ElementType)) (record : List Datum) :
    Except Err (List Nat) :=
  if formats.length ≠ record.length then .error .columnMismatch
  else pack_columns (record.zip formats)

/-- Packing a list of records in order (repeated `Packer.pack` calls). -/
def pack_blocks (formats : List (Nat × ElementType)) :
    List (List Datum) → Except Err (List Nat)
| [] => .ok []
| r :: rs =>
  match packRecord formats r with
  | .error e => .error e
  | .ok bs =>
    match pack_blocks formats rs with
    | .error e => .error e
    | .ok bss => .ok (bs ++ bss)

/-- A whole `Packer` lifetime: the constructor writes
`_make_header(0, sample)`, each `pack` call appends a block, and
`__del__` finalizes by seeking to offset 0 and overwriting the first
u32 with the accumulated total count. -/
def packFile (sample : List Datum) (records : List (List Datum)) :
    Except Err (List Nat) :=
  match pack_blocks (sample.map make_column_format) records with
  | .error e => .error e
  | .ok blocks =>
    .ok (u32le records.length ++ (make_header 0 sample ++ blocks).drop 4)

/-- A value as `struct.unpack` hands it to Python: integer formats give a
Python `int` (sign-decoded for the signed kinds), float formats give a
float (tracked by source kind and bit pattern), `?` gives a `bool`. -/
inductive PyVal
| int (z : Int)
| float (ty : ElementType) (bits : Nat)
| bool (b : Bool)
deriving DecidableEq, Repr

/-- Two's-complement reading of an `nbits`-wide bit pattern. -/
def signedOfBits (nbits : Nat) (bits : Nat) : Int :=
  if bits < 2 ^ (nbits - 1) then (bits : Int) else (bits : Int) - 2 ^ nbits

/-- One element as decoded by `struct.unpack` for a given format. -/
def unpackElem (ty : ElementType) (bits : Nat) : PyVal :=
  match floatParams ty with
  | some _ => .float ty bits
  | none =>
    if ty = .bool_ then .bool (bits != 0)
    else if isSignedTy ty then .int (signedOfBits (8 * typeNBytes ty) bits)
    else .int bits

/-- Floor base-2 logarithm via explicit fuel (kernel-reducible). -/
def log2Fuel : Nat → Nat → Nat
| 0, _ => 0
| fuel + 1, n => if 2 ≤ n then log2Fuel fuel (n / 2) + 1 else 0

/-- Floor base-2 logarithm of a positive number. -/
def floorLog2 (n : Nat) : Nat := log2Fuel n n

/-- IEEE-754 bit pattern of an integer under a binary format with
`expBits` exponent bits and `mantBits` mantissa bits, rounding to nearest
with ties to even and overflowing to infinity (the conversion numpy
performs when an integer value is stored into a float array).  Exact for
every integer whose magnitude fits in `mantBits + 1` bits, which covers
every conversion evaluated in this file. -/
def floatBitsOfInt (expBits mantBits : Nat) (z : Int) : Nat :=
  let n := z.natAbs
  if n = 0 then 0
  else
    let sign := if z < 0 then 2 ^ (expBits + mantBits) else 0
    let bias := 2 ^ (expBits - 1) - 1
    let maxExpField := 2 ^ expBits - 1
    let e := floorLog2 n
    if e ≤ mantBits then
      sign + (bias + e) * 2 ^ mantBits + (n - 2 ^ e) * 2 ^ (mantBits - e)
    else
      let shift := e - mantBits
      let q0 := n / 2 ^ shift
      let r := n % 2 ^ shift
      let q := if 2 * r > 2 ^ shift ∨ (2 * r = 2 ^ shift ∧ q0 % 2 = 1) then q0 + 1 else q0
      let e' := if q = 2 ^ (mantBits + 1) then e + 1 else e
      let q' := if q = 2 ^ (mantBits + 1) then 2 ^ mantBits else q
      if maxExpField ≤ bias + e' then sign + maxExpField * 2 ^ mantBits
      else sign + (bias + e') * 2 ^ mantBits + (q' - 2 ^ mantBits)

/-- The numpy conversion of one decoded value into a target element kind
(`numpy.array(...).astype(element_type)` / `element_type(value)`),
returning the bit pattern of the target kind.  Modelled for the
conversions this codebase exercises: an integer source wraps into integer
kinds, converts into float kinds and tests nonzero into bool; a float
source keeps its bit pattern at its own kind.  A float source with a
different target kind does not occur in this development and is mapped to
bit pattern 0. -/
def astype (target : ElementType) : PyVal → Nat
| .int z =>
  match floatParams target with
  | some (eb, mb) => floatBitsOfInt eb mb z
  | none =>
    if target = .bool_ then (if z = 0 then 0 else 1)
    else (z % (2 ^ (8 * typeNBytes target) : Nat)).toNat
| .float fty bits => if target = fty then bits else 0
| .bool b =>
  match floatParams target with
  | some (eb, mb) => floatBitsOfInt eb mb (if b then 1 else 0)
  | none => if b then 1 else 0

/-- `struct.unpack` of one column's run of elements. -/
def unpack_column (ty : ElementType) : Nat → List Nat → List PyVal
| 0, _ => []
| k + 1, bs =>
  unpackElem ty (natOfBytesLE (bs.take (typeNBytes ty))) ::
    unpack_column ty k (bs.drop (typeNBytes ty))

/-- `struct.unpack(self.__block_format, ...)`: the flat tuple of every
column's elements, in column order. -/
def unpack_values : List ColumnInfo → List Nat → List PyVal
| [], _ => []
| info :: rest, bs =>
  unpack_column info.elementType info.numElements (bs.take info.byteLength) ++
    unpack_values rest (bs.drop info.byteLength)

/-- Fallback value for a slice of an empty tuple (never reached: every
slice taken below starts at 0 and the flat tuple holds at least one
column's worth of elements). -/
def defaultPyVal : PyVal := .int 0

/-- The per-column decode loop of `Loader.load`: `head_index` starts at 0
and — as in the source, where it is never advanced — stays 0 for every
column, while `tail_index` is the current column's element count, so each
column is built from `values[0:num_elements]`.  A scalar column becomes
`element_type(datum[0])`; any other column becomes
`numpy.array(datum).astype(element_type).reshape(*shape)`. -/
def decode_columns (infos : List ColumnInfo) (values : List PyVal) : List Datum :=
  infos.map (fun info =>
    let datum := values.take info.numElements
    if info.isScalar then
      Datum.scalar info.elementType (astype info.elementType (datum.headD defaultPyVal))
    else
      Datum.array info.elementType info.shape (datum.map (astype info.elementType)))

/-- The state a `Loader` holds after its constructor ran `_read_header`
and `_make_column_info`. -/
structure LoaderState where
  headerSize : Nat
  totalCount : Nat
  columnInfos : List ColumnInfo
  blockSize : Nat
  fileBytes : List Nat
deriving DecidableEq, Repr

/-- `Loader.__init__` on the bytes of a pack file. -/
def loaderInit (file : List Nat) : Except Err LoaderState :=
  match read_header file with
  | .error e => .error e
  | .ok (hs, total, ds) =>
    let infos := ds.map make_column_info
    .ok { headerSize := hs
          totalCount := total
          columnInfos := infos
          blockSize := (infos.map ColumnInfo.byteLength).sum
          fileBytes := file }

/-- `Loader.count`. -/
def count (st : LoaderState) : Nat := st.totalCount

/-- `Loader.load`: the only bounds check is `total_count <= index` (a
negative index passes it); then the loader seeks to
`header_size + block_size * index` (an `OSError` if that is negative),
reads `block_size` bytes (a short read makes `unpack` fail) and decodes
the block. -/
def load (st : LoaderState) (index : Int) : Except Err (List Datum) :=
  if (st.totalCount : Int) ≤ index then .error .indexOutOfRange
  else
    let offset : Int := (st.headerSize : Int) + (st.blockSize : Int) * index
    if offset < 0 then .error .ioError
    else
      let block := (st.fileBytes.drop offset.toNat).take st.blockSize
      if block.length < st.blockSize then .error .corruptRecord
      else .ok (decode_columns st.columnInfos (unpack_values st.columnInfos block))

/-- Opening a file and loading one index (`Loader(path).load(i)`). -/
def loadAt (file : List Nat) (index : Int) : Except Err (List Datum) :=
  match loaderInit file with
  | .error e => .error e
  | .ok st => load st index

/-- Packing records into a fresh file and loading one index back. -/
def packLoad (sample : List Datum) (records : List (List Datum)) (index : Int) :
    Except Err (List Datum) :=
  match packFile sample records with
  | .error e => .error e
  | .ok file => loadAt file index

/-- Packing records into a fresh file and reading its record count back
(`Loader(path).count()`). -/
def packCount (sample : List Datum) (records : List (List Datum)) :
    Except Err Nat :=
  match packFile sample records with
  | .error e => .error e
  | .ok file =>
    match loaderInit file with
    | .error e => .error e
    | .ok st => .ok (count st)

/-- `BatchLoader.__len__`: `count // down_samples` when down-sampling is
set (else `count`), divided by the batch size, rounding up. -/
def lenBatches (totalCount batchSize : Nat) (downSamples : Option Nat) : Nat :=
  let c := match downSamples with
    | some s => totalCount / s
    | none => totalCount
  (c + batchSize - 1) / batchSize

/-- Python `range(start, stop, step)` for a positive step. -/
def rangeStep (start stop step : Nat) : List Nat :=
  (List.range ((stop - start + step - 1) / step)).map (fun i => start + i * step)

/-- The record indices `BatchLoader.__next__` loads at cursor position
`t`: `none` models `StopIteration`.  `head = t * batch_size * step`,
`tail = min((t+1) * batch_size * step, count)`, indices
`range(head, tail, step)`. -/
def stepIndices (totalCount batchSize step t : Nat) : Option (List Nat) :=
  let head := t * batchSize * step
  let tail := (t + 1) * batchSize * step
  if totalCount ≤ head then none
  else some (rangeStep head (min tail totalCount) step)

/-- Driving the iterator from cursor `t` until `StopIteration`, with
explicit fuel (any fuel of at least the number of remaining batches gives
the full run). -/
def iterateFrom (totalCount batchSize step : Nat) : Nat → Nat → List (List Nat)
| _, 0 => []
| t, fuel + 1 =>
  match stepIndices totalCount batchSize step t with
  | none => []
  | some l => l :: iterateFrom totalCount batchSize step (t + 1) fuel

/-- One full iteration of a `BatchLoader` (`__iter__` resets the cursor
to 0): the per-batch lists of loaded record indices, in yield order. -/
def fullIteration (totalCount batchSize step : Nat) : List (List Nat) :=
  iterateFrom totalCount batchSize step 0 (totalCount + 1)

/-- Fallback column value for indexing a record (never reached in the
evaluated statements: `__next__` only indexes columns that exist). -/
def defaultDatum : Datum := Datum.scalar .int8 0

/-- The stacked batch container for one column, by numpy dtype and shape
(`__next__` builds either `numpy.array([...])` — only reachable when the
first record's column has shape `(1,)` — or `numpy.zeros((n, *shape))`,
whose dtype is numpy's default float64, and then copies records in, which
changes neither its dtype nor its shape). -/
structure BatchArr where
  dtype : ElementType
  shape : List Nat
deriving DecidableEq, Repr

/-- The column-stacking step of `BatchLoader.__next__` for column `j` of
the records loaded in one batch. -/
def stackColumn (records : List (List Datum)) (j : Nat) : BatchArr :=
  let first := (records.headD []).getD j defaultDatum
  let shape := datumShape first
  if shape = [1] then { dtype := datumType first, shape := records.length :: shape }
  else { dtype := .float64, shape := records.length :: shape }

/-- The number of elements a column value actually holds, as the `struct`
layer sees it: `1` for a scalar, the product of the array's own shape
otherwise (what `reshape` compares against the declared element count). -/
def datumElemCount : Datum → Nat
| .scalar _ _ => 1
| .array _ shape _ => prodList shape

/-- Field-range side conditions under which the `struct.pack` calls of the
header encoder do not raise (`H` fields hold values below `2^16`, `I`
fields below `2^32`). -/
def validDesc (d : ColumnDesc) : Prop :=
  d.shape.length < 2 ^ 16 ∧ ∀ e ∈ d.shape, e < 2 ^ 32

instance (d : ColumnDesc) : Decidable (validDesc d) := by
  unfold validDesc
  infer_instance

/-- The sample record of the spec's end-to-end scenario: a scalar int32
and a `[2,2]` float32 array (float values by IEEE-754 bit pattern:
`1065353216 = 1.0f`, `1073741824 = 2.0f`, `1077936128 = 3.0f`,
`1082130432 = 4.0f`). -/
def sampleC2 : List Datum :=
  [Datum.scalar .int32 1,
   Datum.array .float32 [2, 2] [1065353216, 1073741824, 1077936128, 1082130432]]

/-- The three records of the scenario: `(1, [[1,2],[3,4]])`,
`(2, [[5,6],[7,8]])`, `(3, [[9,10],[11,12]])` (float32 bit patterns:
`1084227584 = 5.0f`, `1086324736 = 6.0f`, `1088421888 = 7.0f`,
`1090519040 = 8.0f`, `1091567616 = 9.0f`, `1092616192 = 10.0f`,
`1093664768 = 11.0f`, `1094713344 = 12.0f`). -/
def recordsC2 : List (List Datum) :=
  [[Datum.scalar .int32 1,
    Datum.array .float32 [2, 2] [1065353216, 1073741824, 1077936128, 1082130432]],
   [Datum.scalar .int32 2,
    Datum.array .float32 [2, 2] [1084227584, 1086324736, 1088421888, 1090519040]],
   [Datum.scalar .int32 3,
    Datum.array .float32 [2, 2] [1091567616, 1092616192, 1093664768, 1094713344]]]

/-- C1: the record round-trip law `Decode(Encode(r)) == r` fails on this
code for multi-column records: packing the record `(7, 9)` into a file
with two scalar int32 columns and loading index 0 back yields `(7, 7)` —
the decode loop never advances `head_index`, so every column is sliced
from the start of the flat value tuple. -/
theorem C1_roundtrip_violation :
    packLoad [Datum.scalar .int32 0, Datum.scalar .int32 0]
        [[Datum.scalar .int32 7, Datum.scalar .int32 9]] 0
      = .ok [Datum.scalar .int32 7, Datum.scalar .int32 7]
    ∧ [Datum.scalar ElementType.int32 7, Datum.scalar ElementType.int32 7]
        ≠ [Datum.scalar ElementType.int32 7, Datum.scalar ElementType.int32 9] := by
  decide

/-- C2: in the spec's end-to-end scenario, `count()` does return 3, but
`load(1)` returns `(2, [[2.0, 5.0], [6.0, 7.0]])` instead of the claimed
`(2, [[5,6],[7,8]])`: the tensor column is sliced from position 0 of the
flat value tuple, picking up the int32 column's value 2 (converted to the
float32 pattern `1073741824 = 2.0f`) and dropping the final 8.0. -/
theorem C2_scenario :
    packCount sampleC2 recordsC2 = .ok 3
    ∧ packLoad sampleC2 recordsC2 1
        = .ok [Datum.scalar .int32 2,
               Datum.array .float32 [2, 2] [1073741824, 1084227584, 1086324736, 1088421888]]
    ∧ packLoad sampleC2 recordsC2 1
        ≠ .ok [Datum.scalar .int32 2,
               Datum.array .float32 [2, 2] [1084227584, 1086324736, 1088421888, 1090519040]] := by
  decide

/-- C3 counterexample: `load(-1)` on the scenario's 3-record file does
not fail with the index error — the only bounds check is
`total_count <= index`, which `-1` passes; the loader then seeks to
`header_size - block_size` (inside the header) and happily decodes
header bytes as a record. -/
theorem C3_counterexample :
    packLoad sampleC2 recordsC2 (-1) ≠ .error .indexOutOfRange := by
  decide

/-- C4 counterexample: a record column whose shape `[4]` disagrees with
the declared shape `[2, 2]` is appended without error, because `pack`
only reshapes by element count and never compares shapes. -/
theorem C4_counterexample :
    (packRecord [make_column_format (Datum.array .float32 [2, 2] [0, 0, 0, 0])]
        [Datum.array .float32 [4] [1, 2, 3, 4]]).isOk = true
    ∧ datumShape (Datum.array ElementType.float32 [4] [1, 2, 3, 4]) ≠ [2, 2] := by
  decide

/-- C5 counterexample: with 5 records, batch size 1 and stride 2,
`__len__` reports `ceil((5 // 2) / 1) = 2` batches but a full iteration
yields 3 (indices `[0]`, `[2]`, `[4]`), so the iterator's length is not
the number of batches yielded. -/
theorem C5_counterexample :
    lenBatches 5 1 (some 2) = 2 ∧ (fullIteration 5 1 2).length = 3 := by
  decide

/-- C8 counterexample: a header whose only column has `dim == 0` decodes
successfully (total count 0, one column of type code 0 with an empty
shape) instead of failing — `_read_data_header` never checks `dim`. -/
theorem C8_counterexample :
    read_header [0, 0, 0, 0, 1, 0, 0, 0, 0, 0, 0, 0]
      = .ok (12, 0, [⟨ElementType.int8, []⟩]) := by
  decide

/-- C3 amended: `load` fails with the index error exactly when
`total_count <= index`; a negative index passes the bounds check (and
leads to a seek/read at a miscomputed offset instead). -/
theorem C3_load_guard (st : LoaderState) (index : Int) :
    load st index = .error .indexOutOfRange ↔ (st.totalCount : Int) ≤ index := by
  unfold load
  by_cases h : (st.totalCount : Int) ≤ index
  · simp [h]
  · simp only [h, if_false, iff_false]
    split
    · simp
    · split <;> simp

/-- C3 witness: a loader over a 3-record file rejects index 5. -/
theorem C3_witness :
    load { headerSize := 28, totalCount := 3, columnInfos := [], blockSize := 0,
           fileBytes := [] } 5 = .error .indexOutOfRange :=
  (C3_load_guard
    { headerSize := 28, totalCount := 3, columnInfos := [], blockSize := 0,
      fileBytes := [] } 5).mpr (by decide)

/-- One packed column succeeds exactly when the value's element count
matches the count fixed from the sample. -/
theorem pack_one_isOk (fmt : Nat × ElementType) (d : Datum) :
    (pack_one fmt d).isOk = true ↔ datumElemCount d = fmt.1 := by
  cases d with
  | scalar ty bits =>
    by_cases h : fmt.1 = 1 <;>
      simp [pack_one, datumElemCount, h, Except.isOk, Except.toBool] <;> omega
  | array ty shape elems =>
    by_cases h : prodList shape = fmt.1 <;>
      simp [pack_one, datumElemCount, h, Except.isOk, Except.toBool]

/-- The column write loop succeeds exactly when every column's element
count matches its declared count. -/
theorem pack_columns_isOk (l : List (Datum × (Nat × ElementType))) :
    (pack_columns l).isOk = true ↔ ∀ p ∈ l, datumElemCount p.1 = p.2.1 := by
  induction l with
  | nil => simp [pack_columns, Except.isOk, Except.toBool]
  | cons p rest ih =>
    obtain ⟨d, fmt⟩ := p
    have hone := pack_one_isOk fmt d
    cases h1 : pack_one fmt d with
    | error e =>
      rw [h1] at hone
      simp [pack_columns, h1, Except.isOk, Except.toBool] at hone ⊢
      intro hc
      exact absurd hc hone
    | ok bs =>
      rw [h1] at hone
      simp [Except.isOk, Except.toBool] at hone
      cases h2 : pack_columns rest with
      | error e =>
        rw [h2] at ih
        simp [Except.isOk, Except.toBool] at ih
        simp [pack_columns, h1, h2, Except.isOk, Except.toBool, hone]
        exact ih
      | ok bss =>
        rw [h2] at ih
        simp [Except.isOk, Except.toBool] at ih
        simp [pack_columns, h1, h2, Except.isOk, Except.toBool, hone]
        exact ih

/-- C4 amended: appending a record fails with the column-count error
exactly when the record's column count differs from the count fixed at
creation; otherwise it is accepted if and only if every column's element
count equals the element count of the corresponding sample column — the
declared shape itself is never compared, so a shape disagreement with
equal element count is accepted (and an element-count disagreement
raises a reshape/pack error, not the column-count error).  Records whose
element kinds disagree with the declared kinds are outside the modelled
fragment, hence the `hkinds` hypothesis. -/
theorem C4_append_validation (sample record : List Datum)
    (hkinds : ∀ p ∈ record.zip (sample.map make_column_format), datumType p.1 = p.2.2) :
    (sample.length ≠ record.length →
      packRecord (sample.map make_column_format) record = .error .columnMismatch)
    ∧ ((packRecord (sample.map make_column_format) record).isOk = true ↔
        (sample.length = record.length
         ∧ ∀ p ∈ record.zip (sample.map make_column_format), datumElemCount p.1 = p.2.1)) := by
  constructor
  · intro h
    simp [packRecord, List.length_map, h]
  · by_cases h : sample.length = record.length
    · simp [packRecord, List.length_map, h, pack_columns_isOk]
    · simp [packRecord, List.length_map, h, Except.isOk, Except.toBool]

/-- C4 witness: a `[4]`-shaped column is accepted against the declared
shape `[2, 2]` because the element counts agree. -/
theorem C4_witness :
    (packRecord ([Datum.array ElementType.float32 [2, 2] [0, 0, 0, 0]].map make_column_format)
        [Datum.array ElementType.float32 [4] [1, 2, 3, 4]]).isOk = true :=
  ((C4_append_validation [Datum.array ElementType.float32 [2, 2] [0, 0, 0, 0]]
      [Datum.array ElementType.float32 [4] [1, 2, 3, 4]] (by decide)).2).mpr (by decide)

/-- A decoded column whose declared shape is not `[1]` is not flagged
scalar by `_make_column_info`. -/
theorem make_column_info_not_scalar (d : ColumnDesc) (h : d.shape ≠ [1]) :
    (make_column_info d).isScalar = false := by
  unfold make_column_info
  rcases hs : d.shape with _ | ⟨n, _ | ⟨m, tl⟩⟩
  · rfl
  · rw [hs] at h
    have hn : n ≠ 1 := by intro hc; exact h (by rw [hc])
    simp [hn]
  · rfl

/-- C9: for a column whose declared shape is not `[1]`, the stacked batch
container built by `BatchLoader.__next__` from loaded records has numpy
dtype float64, whatever the column's declared element kind: the batch
buffer comes from `numpy.zeros`, whose default dtype is float64, and
copying records into it does not change its dtype. -/
theorem C9_tensor_batch_dtype (descs : List ColumnDesc) (valuess : List (List PyVal))
    (j : Nat) (hne : valuess ≠ []) (hj : j < descs.length)
    (hshape : descs[j].shape ≠ [1]) :
    (stackColumn (valuess.map (decode_columns (descs.map make_column_info))) j).dtype
      = .float64 := by
  obtain ⟨v, vs, rfl⟩ := List.exists_cons_of_ne_nil hne
  have hinfo : (descs.map make_column_info)[j]? = some (make_column_info descs[j]) := by
    rw [List.getElem?_map, List.getElem?_eq_getElem hj]
    rfl
  have hdatum :
      (decode_columns (descs.map make_column_info) v).getD j defaultDatum
        = Datum.array descs[j].elementType descs[j].shape
            ((v.take (prodList descs[j].shape)).map (astype descs[j].elementType)) := by
    have hscal := make_column_info_not_scalar descs[j] hshape
    simp only [make_column_info] at hscal
    rw [List.getD_eq_getElem?_getD, decode_columns, List.getElem?_map, hinfo]
    simp [make_column_info, hscal]
  unfold stackColumn
  simp only [List.map_cons, List.headD_cons, hdatum, datumShape]
  simp [hshape]

/-- C9 witness: a `[2]`-shaped int8 column stacks into a float64 batch. -/
theorem C9_witness :
    (stackColumn ([[PyVal.int 1, PyVal.int 2]].map
        (decode_columns ([ColumnDesc.mk ElementType.int8 [2]].map make_column_info))) 0).dtype
      = ElementType.float64 :=
  C9_tensor_batch_dtype [ColumnDesc.mk ElementType.int8 [2]] [[PyVal.int 1, PyVal.int 2]]
    0 (by decide) (by decide) (by decide)

/-- C10: a column whose declared on-disk shape is exactly `[1]` is always
decoded to a single scalar of its element kind (never a one-element
array); concretely, packing a one-element `[1]`-shaped int32 array and
loading it back returns the plain scalar — the representation changes
from array to scalar across the round trip. -/
theorem C10_scalar_collapse :
    (∀ (descs : List ColumnDesc) (values : List PyVal) (j : Nat) (hj : j < descs.length),
        descs[j].shape = [1] →
        ∃ bits, (decode_columns (descs.map make_column_info) values)[j]?
          = some (Datum.scalar (descs[j].elementType) bits))
    ∧ packLoad [Datum.array .int32 [1] [5]] [[Datum.array .int32 [1] [5]]] 0
        = .ok [Datum.scalar .int32 5] := by
  constructor
  · intro descs values j hj hshape
    have hinfo : (descs.map make_column_info)[j]? = some (make_column_info descs[j]) := by
      rw [List.getElem?_map, List.getElem?_eq_getElem hj]
      rfl
    refine ⟨astype descs[j].elementType
      ((values.take (prodList descs[j].shape)).headD defaultPyVal), ?_⟩
    rw [decode_columns, List.getElem?_map, hinfo]
    simp [make_column_info, hshape]
  · decide

/-- C10 witness: a one-column descriptor list with shape `[1]` decodes
column 0 to a scalar of its kind. -/
theorem C10_witness :
    ∃ bits, (decode_columns ([ColumnDesc.mk ElementType.int32 [1]].map make_column_info)
        [PyVal.int 5])[0]?
      = some (Datum.scalar ((([ColumnDesc.mk ElementType.int32 [1]] :
          List ColumnDesc)[0]).elementType) bits) :=
  C10_scalar_collapse.1 [ColumnDesc.mk ElementType.int32 [1]] [PyVal.int 5] 0
    (by decide) (by decide)

/-- Every registered type code decodes back to its kind (the registry is
a bijection on the supported set). -/
theorem codeToType_typeCode (ty : ElementType) : codeToType (typeCode ty) = some ty := by
  cases ty <;> rfl

/-- Every type code fits one u16 header field. -/
theorem typeCode_lt (ty : ElementType) : typeCode ty < 2 ^ 16 := by
  cases ty <;> decide

/-- The serialized shape extents occupy 4 bytes each. -/
theorem length_shape_bytes (shape : List Nat) :
    ((shape.map u32le).flatten).length = 4 * shape.length := by
  induction shape with
  | nil => rfl
  | cons e es ih =>
    simp only [List.map_cons, List.flatten_cons, List.length_append, ih, List.length_cons]
    simp [u32le, bytesLE]
    omega

/-- Reading back `n` serialized u32 extents recovers them. -/
theorem readU32s_encode (shape : List Nat) (rest : List Nat)
    (h : ∀ e ∈ shape, e < 2 ^ 32) :
    readU32s shape.length ((shape.map u32le).flatten ++ rest) = shape := by
  induction shape with
  | nil => rfl
  | cons e es ih =>
    have he : e < 2 ^ 32 := h e (by simp)
    simp only [List.map_cons, List.flatten_cons, List.length_cons, List.append_assoc]
    simp only [u32le, bytesLE, List.cons_append, List.nil_append]
    rw [readU32s, List.cons.injEq]
    exact ⟨by omega, ih (fun x hx => h x (by simp [hx]))⟩

/-- Decoding one serialized per-column header recovers the descriptor and
leaves the remaining stream untouched. -/
theorem read_data_header_encode (d : ColumnDesc) (rest : List Nat)
    (hv : validDesc d) :
    read_data_header (encodeDesc d ++ rest) = .ok (d, rest) := by
  obtain ⟨hdim, hex⟩ := hv
  have hcode := typeCode_lt d.elementType
  simp only [encodeDesc, u16le, bytesLE, List.cons_append, List.nil_append,
    List.append_assoc]
  rw [read_data_header]
  have h1 : typeCode d.elementType % 256 + 256 * (typeCode d.elementType / 256 % 256)
      = typeCode d.elementType := by omega
  have h2 : d.shape.length % 256 + 256 * (d.shape.length / 256 % 256)
      = d.shape.length := by omega
  have hlen : ((d.shape.map u32le).flatten ++ rest).length = 4 * d.shape.length + rest.length := by
    rw [List.length_append, length_shape_bytes]
  have hdrop : ((d.shape.map u32le).flatten ++ rest).drop (4 * d.shape.length) = rest := by
    rw [← length_shape_bytes d.shape, List.drop_left]
  simp only [h1, h2, codeToType_typeCode]
  rw [if_neg (by omega), readU32s_encode d.shape rest hex, hdrop]

/-- Decoding the concatenation of serialized per-column headers recovers
all descriptors in order. -/
theorem read_columns_encode (descs : List ColumnDesc) (rest : List Nat)
    (h : ∀ d ∈ descs, validDesc d) :
    read_columns descs.length ((descs.map encodeDesc).flatten ++ rest) = .ok (descs, rest) := by
  induction descs with
  | nil => rfl
  | cons d ds ih =>
    simp only [List.map_cons, List.flatten_cons, List.length_cons, List.append_assoc]
    rw [read_columns]
    simp only [read_data_header_encode d _ (h d (by simp)),
      ih (fun x hx => h x (by simp [hx]))]

/-- C7 confirmed: for any sample-derived descriptor set whose fields fit
their header field widths, decoding the encoded header recovers the total
count, the column count (the length of the returned descriptor list) and
every column's element kind and shape, and reports a header size equal to
the number of header bytes — whatever bytes follow the header. -/
theorem C7_header_roundtrip (totalCount : Nat) (sample : List Datum) (extra : List Nat)
    (htotal : totalCount < 2 ^ 32) (hcols : sample.length < 2 ^ 32)
    (hvalid : ∀ d ∈ sample, validDesc (datumDesc d)) :
    read_header (make_header totalCount sample ++ extra)
      = .ok ((make_header totalCount sample).length, totalCount, sample.map datumDesc) := by
  have hmap : sample.map make_data_header = (sample.map datumDesc).map encodeDesc := by
    rw [List.map_map]
    rfl
  have hhdr : (make_header totalCount sample).length
      = 8 + (((sample.map datumDesc).map encodeDesc).flatten).length := by
    simp only [make_header, hmap, List.length_append, u32le, bytesLE]
    simp
  rw [hhdr]
  simp only [make_header, hmap, u32le, bytesLE, List.cons_append, List.nil_append,
    List.append_assoc]
  rw [read_header]
  have h1 : totalCount % 256 + 256 * (totalCount / 256 % 256)
      + 65536 * (totalCount / 256 / 256 % 256) + 16777216 * (totalCount / 256 / 256 / 256 % 256)
      = totalCount := by omega
  have h2 : sample.length % 256 + 256 * (sample.length / 256 % 256)
      + 65536 * (sample.length / 256 / 256 % 256)
      + 16777216 * (sample.length / 256 / 256 / 256 % 256)
      = sample.length := by omega
  have hvalid' : ∀ d ∈ sample.map datumDesc, validDesc d := by
    intro d hd
    obtain ⟨x, hx, rfl⟩ := List.mem_map.mp hd
    exact hvalid x hx
  have hlen : sample.length = (sample.map datumDesc).length := by
    rw [List.length_map]
  have hsz : (((sample.map datumDesc).map encodeDesc).flatten ++ extra).length - extra.length
      = (((sample.map datumDesc).map encodeDesc).flatten).length := by
    rw [List.length_append]
    omega
  rw [h1, h2, hlen]
  simp only [read_columns_encode (sample.map datumDesc) extra hvalid', hsz]

/-- C7 witness: a two-column header (scalar int32, `[2,2]` float32 with
no sample elements needed) with total count 7 round-trips in front of a
trailing byte. -/
theorem C7_witness :
    read_header (make_header 7 [Datum.scalar ElementType.int32 0,
        Datum.array ElementType.float32 [2, 2] []] ++ [9])
      = .ok ((make_header 7 [Datum.scalar ElementType.int32 0,
          Datum.array ElementType.float32 [2, 2] []]).length, 7,
        [Datum.scalar ElementType.int32 0,
         Datum.array ElementType.float32 [2, 2] []].map datumDesc) :=
  C7_header_roundtrip 7
    [Datum.scalar ElementType.int32 0, Datum.array ElementType.float32 [2, 2] []]
    [9] (by decide) (by decide) (by decide)

/-- Ceiling-division characterization: `t` is below `ceil(n / m)` exactly
when `t * m` is below `n`. -/
theorem lt_ceilDiv {m : Nat} (hm : 0 < m) (t n : Nat) :
    t < (n + m - 1) / m ↔ t * m < n := by
  rcases n with _ | n
  · have h0 : (m - 1) / m = 0 := Nat.div_eq_of_lt (by omega)
    simp [h0]
  · rw [Nat.lt_iff_add_one_le, Nat.le_div_iff_mul_le hm,
      show n + 1 + m - 1 = n + m by omega, Nat.succ_mul]
    omega

/-- Ceiling-division characterization: `ceil(n / m) ≤ x` exactly when
`n ≤ x * m`. -/
theorem ceilDiv_le {m : Nat} (hm : 0 < m) (n x : Nat) :
    (n + m - 1) / m ≤ x ↔ n ≤ x * m := by
  have h := lt_ceilDiv hm x n
  revert h
  generalize (n + m - 1) / m = q
  generalize x * m = p
  intro h
  omega

/-- `n` never exceeds `ceil(n / m) * m`. -/
theorem ceil_le_mul {m : Nat} (hm : 0 < m) (n : Nat) :
    n ≤ ((n + m - 1) / m) * m :=
  (ceilDiv_le hm n _).mp (Nat.le_refl _)

/-- The iterator stops at cursor `t` exactly when `head ≥ count`. -/
theorem stepIndices_none_iff (c b s t : Nat) :
    stepIndices c b s t = none ↔ c ≤ t * b * s := by
  simp only [stepIndices]
  split <;> simp [*]

/-- Driving the iterator from cursor `t` with enough fuel yields exactly
the batches of the cursor positions `t, t+1, ...` below the total number
of batches `ceil(count / (batch_size * step))`. -/
theorem iterateFrom_eq (c b s : Nat) (hb : 0 < b) (hs : 0 < s) :
    ∀ (fuel t : Nat), (c + b * s - 1) / (b * s) - t ≤ fuel →
      iterateFrom c b s t fuel
        = (List.range' t ((c + b * s - 1) / (b * s) - t)).map
            (fun u => rangeStep (u * b * s) (min ((u + 1) * b * s) c) s) := by
  have hbs : 0 < b * s := Nat.mul_pos hb hs
  intro fuel
  induction fuel with
  | zero =>
    intro t ht
    rw [show (c + b * s - 1) / (b * s) - t = 0 by omega]
    rfl
  | succ fuel ih =>
    intro t ht
    rw [iterateFrom]
    cases hstep : stepIndices c b s t with
    | none =>
      have hle : c ≤ t * b * s := (stepIndices_none_iff c b s t).mp hstep
      rw [Nat.mul_assoc] at hle
      have hN : (c + b * s - 1) / (b * s) ≤ t := (ceilDiv_le hbs c t).mpr hle
      rw [show (c + b * s - 1) / (b * s) - t = 0 by omega]
      rfl
    | some l =>
      have hlt : ¬ c ≤ t * b * s := by
        intro hc
        rw [(stepIndices_none_iff c b s t).mpr hc] at hstep
        cases hstep
      have htlt : t < (c + b * s - 1) / (b * s) := by
        rw [lt_ceilDiv hbs, ← Nat.mul_assoc]
        omega
      have hl : l = rangeStep (t * b * s) (min ((t + 1) * b * s) c) s := by
        simp only [stepIndices] at hstep
        rw [if_neg hlt] at hstep
        injection hstep with h
        exact h.symm
      rw [ih (t + 1) (by omega),
        show (c + b * s - 1) / (b * s) - t = ((c + b * s - 1) / (b * s) - (t + 1)) + 1 by omega,
        List.range'_succ, List.map_cons, hl]

/-- One full iteration is the list of all batches, by cursor order. -/
theorem fullIteration_eq (c b s : Nat) (hb : 0 < b) (hs : 0 < s) :
    fullIteration c b s
      = (List.range ((c + b * s - 1) / (b * s))).map
          (fun t => rangeStep (t * b * s) (min ((t + 1) * b * s) c) s) := by
  have hbs : 0 < b * s := Nat.mul_pos hb hs
  have hN : (c + b * s - 1) / (b * s) ≤ c := by
    rw [ceilDiv_le hbs]
    exact Nat.le_mul_of_pos_right c hbs
  unfold fullIteration
  rw [iterateFrom_eq c b s hb hs (c + 1) 0 (by omega), Nat.sub_zero, List.range_eq_range']

/-- C5 amended: `__len__` computes `ceil((count // stride) / batch_size)`
as the spec's formula states, but a full iteration yields
`ceil(count / (batch_size * stride))` batches; the two agree whenever the
stride divides the record count (in particular for stride 1), and
disagree otherwise (see the counterexample). -/
theorem C5_batch_count (c b s : Nat) (hb : 0 < b) (hs : 0 < s) :
    lenBatches c b (some s) = (c / s + b - 1) / b
    ∧ (fullIteration c b s).length = (c + b * s - 1) / (b * s)
    ∧ (s ∣ c → (fullIteration c b s).length = lenBatches c b (some s)) := by
  have hbs : 0 < b * s := Nat.mul_pos hb hs
  refine ⟨rfl, ?_, ?_⟩
  · rw [fullIteration_eq c b s hb hs, List.length_map, List.length_range]
  · rintro ⟨m, rfl⟩
    rw [fullIteration_eq (s * m) b s hb hs, List.length_map, List.length_range]
    show (s * m + b * s - 1) / (b * s) = (s * m / s + b - 1) / b
    rw [Nat.mul_div_cancel_left m hs]
    apply Nat.le_antisymm
    · rw [ceilDiv_le hbs]
      calc s * m = m * s := Nat.mul_comm s m
        _ ≤ (((m + b - 1) / b) * b) * s := Nat.mul_le_mul_right s (ceil_le_mul hb m)
        _ = ((m + b - 1) / b) * (b * s) := Nat.mul_assoc _ _ _
    · rw [ceilDiv_le hb]
      have h1 : s * m ≤ (((s * m + b * s - 1) / (b * s)) * b) * s := by
        have := ceil_le_mul hbs (s * m)
        rw [← Nat.mul_assoc] at this
        exact this
      have h2 : m * s ≤ (((s * m + b * s - 1) / (b * s)) * b) * s := by
        rw [Nat.mul_comm m s]
        exact h1
      exact Nat.le_of_mul_le_mul_right h2 hs

/-- C5 witness: 6 records, batch size 2, stride 3: `__len__` is 1
(`6 // 3 = 2` records, one batch of 2) and one batch is indeed yielded. -/
theorem C5_witness :
    lenBatches 6 2 (some 3) = (6 / 3 + 2 - 1) / 2
    ∧ (fullIteration 6 2 3).length = (6 + 2 * 3 - 1) / (2 * 3)
    ∧ (3 ∣ 6 → (fullIteration 6 2 3).length = lenBatches 6 2 (some 3)) :=
  C5_batch_count 6 2 3 (by decide) (by decide)

/-- The record indices of one batch, rewritten from step form
(`head + i * step` below the truncated tail) to multiples-of-`s` form:
the `t`-th batch covers the multiples `(t*b + i) * s` for
`i < min((t+1)*b, N) - t*b`, where `N = ceil(count / s)` is the number of
multiples of `s` below `count`. -/
theorem chunk_content (c b s t : Nat) (hb : 0 < b) (hs : 0 < s) :
    rangeStep (t * b * s) (min ((t + 1) * b * s) c) s
      = (List.range (min ((t + 1) * b) ((c + s - 1) / s) - t * b)).map
          (fun i => (t * b + i) * s) := by
  have hsucc : (t + 1) * b * s = t * b * s + b * s := by ring
  have hlen : (min ((t + 1) * b * s) c - t * b * s + s - 1) / s
      = min ((t + 1) * b) ((c + s - 1) / s) - t * b := by
    rcases le_or_lt ((t + 1) * b * s) c with hle | hlt
    · rw [Nat.min_eq_left hle]
      have h2 : (t + 1) * b ≤ (c + s - 1) / s := by
        by_contra hcon
        push_neg at hcon
        have hc1 : c ≤ ((c + s - 1) / s) * s := ceil_le_mul hs c
        have hc2 : ((c + s - 1) / s) * s < ((t + 1) * b) * s :=
          (Nat.mul_lt_mul_right hs).mpr hcon
        omega
      rw [Nat.min_eq_left h2]
      have hsub2 : (t + 1) * b * s - t * b * s = b * s := by omega
      rw [hsub2]
      have hbsb : (b * s + s - 1) / s = b := by
        apply Nat.le_antisymm
        · rw [ceilDiv_le hs]
        · have h3 := (lt_ceilDiv hs (b - 1) (b * s)).mpr
            ((Nat.mul_lt_mul_right hs).mpr (by omega))
          omega
      rw [hbsb]
      have hsucc2 : (t + 1) * b = t * b + b := by ring
      omega
    · have hminc : min ((t + 1) * b * s) c = c := Nat.min_eq_right (by omega)
      have h2 : (c + s - 1) / s ≤ (t + 1) * b := by
        rw [ceilDiv_le hs]
        omega
      rw [hminc, Nat.min_eq_right h2]
      rcases le_or_lt (t * b * s) c with hle2 | hlt2
      · have hdecomp : c + s - 1 = (c - t * b * s + s - 1) + (t * b) * s := by
          have h1 : (t * b) * s = t * b * s := by ring
          omega
        have hadd := Nat.add_mul_div_right (c - t * b * s + s - 1) (t * b) hs
        rw [hdecomp, hadd, Nat.add_sub_cancel]
      · have hsub : c - t * b * s = 0 := by omega
        rw [hsub]
        have hzero : (0 + s - 1) / s = 0 := Nat.div_eq_of_lt (by omega)
        rw [hzero]
        have h3 : (c + s - 1) / s ≤ t * b := by
          rw [ceilDiv_le hs]
          omega
        omega
  unfold rangeStep
  rw [hlen]
  apply List.map_congr_left
  intro i _
  ring

/-- Concatenating the per-batch index chunks (in multiples-of-`s` form,
with the `* s` factored out) over the first `k` batches yields the first
`min(k*b, N)` multiples. -/
theorem chunks_flatten (b N : Nat) :
    ∀ k, ((List.range k).map (fun t => (List.range (min ((t + 1) * b) N - t * b)).map
        (fun i => t * b + i))).flatten = List.range (min (k * b) N) := by
  intro k
  induction k with
  | zero => simp
  | succ k ih =>
    rw [List.range_succ, List.map_append, List.flatten_append, ih]
    simp only [List.map_cons, List.map_nil, List.flatten_cons, List.flatten_nil,
      List.append_nil]
    rcases le_or_lt N (k * b) with hle | hlt
    · have hkb : k * b ≤ (k + 1) * b := Nat.mul_le_mul_right b (by omega)
      rw [Nat.min_eq_right hle, Nat.min_eq_right (by omega : N ≤ (k + 1) * b)]
      rw [show N - k * b = 0 by omega]
      simp
    · have h1 : min (k * b) N = k * b := Nat.min_eq_left (by omega)
      have hkb : k * b ≤ (k + 1) * b := Nat.mul_le_mul_right b (by omega)
      have h2 : k * b ≤ min ((k + 1) * b) N := Nat.le_min.mpr ⟨hkb, by omega⟩
      rw [h1]
      have hmin : min ((k + 1) * b) N = k * b + (min ((k + 1) * b) N - k * b) := by omega
      conv_rhs => rw [hmin]
      rw [List.range_add]

/-- The joined record indices of one full iteration: every multiple of
the stride below the record count, in order, exactly once. -/
theorem fullIteration_flatten (c b s : Nat) (hb : 0 < b) (hs : 0 < s) :
    (fullIteration c b s).flatten
      = (List.range ((c + s - 1) / s)).map (· * s) := by
  have hbs : 0 < b * s := Nat.mul_pos hb hs
  rw [fullIteration_eq c b s hb hs]
  rw [List.map_congr_left (fun t _ => chunk_content c b s t hb hs)]
  have hinner : ∀ t : Nat,
      (List.range (min ((t + 1) * b) ((c + s - 1) / s) - t * b)).map
          (fun i => (t * b + i) * s)
        = ((List.range (min ((t + 1) * b) ((c + s - 1) / s) - t * b)).map
            (fun i => t * b + i)).map (· * s) := by
    intro t
    rw [List.map_map]
    rfl
  rw [List.map_congr_left (fun t _ => hinner t)]
  have hcomp : (List.range ((c + b * s - 1) / (b * s))).map
        (fun t => ((List.range (min ((t + 1) * b) ((c + s - 1) / s) - t * b)).map
          (fun i => t * b + i)).map (· * s))
      = ((List.range ((c + b * s - 1) / (b * s))).map
          (fun t => (List.range (min ((t + 1) * b) ((c + s - 1) / s) - t * b)).map
            (fun i => t * b + i))).map (List.map (· * s)) := by
    rw [List.map_map]
    rfl
  rw [hcomp, ← List.map_flatten,
    chunks_flatten b ((c + s - 1) / s) ((c + b * s - 1) / (b * s))]
  have hN : (c + s - 1) / s ≤ ((c + b * s - 1) / (b * s)) * b := by
    rw [ceilDiv_le hs]
    have h1 : c ≤ ((c + b * s - 1) / (b * s)) * (b * s) := ceil_le_mul hbs c
    rw [← Nat.mul_assoc] at h1
    exact h1
  rw [Nat.min_eq_right hN]

/-- C6 confirmed: a full iteration with stride `s` loads, across all
batches in yield order, exactly the record indices `0, s, 2s, ...`
strictly below the record count, each once; for stride 1 that is
`0 .. count-1` in order, and every batch except possibly the last holds
exactly `batch_size` record indices. -/
theorem C6_batch_coverage (c b s : Nat) (hb : 0 < b) (hs : 0 < s) :
    (fullIteration c b s).flatten = (List.range ((c + s - 1) / s)).map (· * s)
    ∧ (fullIteration c b 1).flatten = List.range c
    ∧ ∀ l ∈ (fullIteration c b 1).dropLast, l.length = b := by
  refine ⟨fullIteration_flatten c b s hb hs, ?_, ?_⟩
  · rw [fullIteration_flatten c b 1 hb Nat.one_pos]
    simp
  · intro l hl
    rw [fullIteration_eq c b 1 hb Nat.one_pos] at hl
    cases hK : (c + b * 1 - 1) / (b * 1) with
    | zero =>
      rw [hK] at hl
      simp at hl
    | succ j =>
      rw [hK, List.range_succ, List.map_append] at hl
      simp only [List.map_cons, List.map_nil] at hl
      rw [List.dropLast_concat] at hl
      obtain ⟨t, ht, rfl⟩ := List.mem_map.mp hl
      rw [List.mem_range] at ht
      have htK : t + 1 < (c + b * 1 - 1) / (b * 1) := by omega
      have hc : (t + 1) * (b * 1) < c := (lt_ceilDiv (by omega) (t + 1) c).mp htK
      rw [Nat.mul_one] at hc
      unfold rangeStep
      rw [List.length_map, List.length_range]
      have hmin : min ((t + 1) * b * 1) c = (t + 1) * b := by
        rw [Nat.mul_one]
        exact Nat.min_eq_left (by omega)
      rw [hmin]
      have hsucc : (t + 1) * b = t * b + b := by ring
      omega

/-- C6 witness: 7 records, batch size 3, stride 2 covers indices
`0, 2, 4, 6`; with stride 1 the iteration covers `0 .. 6` and every
non-final batch holds 3 indices. -/
theorem C6_witness :
    (fullIteration 7 3 2).flatten = (List.range ((7 + 2 - 1) / 2)).map (· * 2)
    ∧ (fullIteration 7 3 1).flatten = List.range 7
    ∧ ∀ l ∈ (fullIteration 7 3 1).dropLast, l.length = 3 :=
  C6_batch_coverage 7 3 2 (by decide) (by decide)

/-- C8 amended: header decoding fails when the stream ends before the
8-byte file prefix, before a column's 4-byte type/dim prefix, or before
the column's `dim` u32 shape extents, and when a type code is outside the
registry; but a `dim` field equal to 0 is NOT rejected — it decodes
successfully to a column with an empty shape (see the counterexample). -/
theorem C8_header_validation :
    (∀ bs : List Nat, bs.length < 8 → read_header bs = .error .corruptHeader)
    ∧ (∀ bs : List Nat, bs.length < 4 → read_data_header bs = .error .corruptHeader)
    ∧ (∀ b0 b1 b2 b3 rest, codeToType (b0 + 256 * b1) = none →
        read_data_header (b0 :: b1 :: b2 :: b3 :: rest) = .error .corruptHeader)
    ∧ (∀ b0 b1 b2 b3 rest, (rest : List Nat).length < 4 * (b2 + 256 * b3) →
        read_data_header (b0 :: b1 :: b2 :: b3 :: rest) = .error .corruptHeader)
    ∧ (∀ b0 b1 rest ty, codeToType (b0 + 256 * b1) = some ty →
        read_data_header (b0 :: b1 :: 0 :: 0 :: rest) = .ok (⟨ty, []⟩, rest)) := by
  refine ⟨?_, ?_, ?_, ?_, ?_⟩
  · intro bs h
    rcases bs with _ | ⟨b0, _ | ⟨b1, _ | ⟨b2, _ | ⟨b3, _ | ⟨b4, _ | ⟨b5, _ | ⟨b6, _ | ⟨b7, rest⟩⟩⟩⟩⟩⟩⟩⟩
    all_goals first
    | rfl
    | (exfalso; simp only [List.length_cons] at h; omega)
  · intro bs h
    rcases bs with _ | ⟨b0, _ | ⟨b1, _ | ⟨b2, _ | ⟨b3, rest⟩⟩⟩⟩
    all_goals first
    | rfl
    | (exfalso; simp only [List.length_cons] at h; omega)
  · intro b0 b1 b2 b3 rest h
    simp [read_data_header, h]
  · intro b0 b1 b2 b3 rest h
    cases hc : codeToType (b0 + 256 * b1) with
    | none => simp [read_data_header, hc]
    | some ty => simp [read_data_header, hc, h]
  · intro b0 b1 rest ty h
    simp [read_data_header, h, readU32s]

/-- C8 witness: a well-formed column header with a known type code and
`dim = 0` decodes to an empty-shape column. -/
theorem C8_witness :
    read_data_header (2 :: 0 :: 0 :: 0 :: [7]) = .ok (⟨ElementType.int32, []⟩, [7]) :=
  C8_header_validation.2.2.2.2 2 0 [7] ElementType.int32 (by decide)

end Nndspack
